import Mathlib

/-!
Verification of the in-memory variant of the todo-api HTTP service
(`main.go`).  The data model and each handler are embedded shallowly:
HTTP status codes, the `Content-Type` header and the response body are
made explicit, the mutable global slice `todos` becomes explicit state
passing, and the fallible inputs (path-id parsing via `strconv.Atoi`,
JSON body decoding) are passed as `Except` values so every control path
of the Go code is represented.
-/

/-- The `Todo` struct of `main.go`: integer identifier, task text,
completion flag.  Go `int` is embedded as `Int` (no arithmetic here can
overflow on realistic collections, and no handler performs wraparound
arithmetic). -/
structure Todo where
  ID : Int
  Task : String
  Done : Bool
deriving DecidableEq, Repr

/-- The global slice `todos` as initialized in `main.go` lines 20-23. -/
def initialTodos : List Todo :=
  [⟨1, "Learn Go basics", true⟩, ⟨2, "Build a simple API", false⟩]

/-- Response bodies: a single JSON-encoded item, a JSON-encoded array,
a plain-text error message (what `http.Error` writes), or the empty body
of a 204 response. -/
inductive Body where
  | item : Todo → Body
  | items : List Todo → Body
  | text : String → Body
  | empty : Body
deriving DecidableEq, Repr

/-- An HTTP response: status code, the `Content-Type` header if the
handler set one, and the body. -/
structure Response where
  status : Nat
  contentType : Option String
  body : Body
deriving DecidableEq, Repr

/-- `ListHandler` (`main.go` lines 25-31): sets the JSON content type and
encodes the whole collection; the Go `http` package sends an implicit
200.  The state is returned unchanged. -/
def ListHandler (s : List Todo) : Response × List Todo :=
  (⟨200, some "application/json", Body.items s⟩, s)

/-- `ReadHandler` (`main.go` lines 33-57).  `idArg` is the result of
`strconv.Atoi(mux.Vars(r)["id"])`: `Except.error` when the path segment
is not an integer.  The Go loop returns the first element whose `ID`
matches, which is `List.find?`. -/
def ReadHandler (s : List Todo) (idArg : Except Unit Int) : Response × List Todo :=
  match idArg with
  | Except.error _ =>
      (⟨400, none, Body.text "Invalid ID! ID must be an integer"⟩, s)
  | Except.ok id =>
      match s.find? (fun t => t.ID == id) with
      | none => (⟨404, none, Body.text "Todo not found"⟩, s)
      | some t => (⟨200, some "application/json", Body.item t⟩, s)

/-- The `maxID` scan of `CreateHandler` (`main.go` lines 72-77):
`var maxID int` starts at `0` and is raised to any larger `todo.ID`. -/
def createMaxID (s : List Todo) : Int :=
  s.foldl (fun maxID t => if maxID < t.ID then t.ID else maxID) 0

/-- `CreateHandler` (`main.go` lines 59-93).  `bodyArg` is the result of
decoding the request body into a `Todo` (`Except.error` carries the
decoder's message).  The decoded `ID` field is ignored; the new item gets
`maxID + 1` and is appended. -/
def CreateHandler (s : List Todo) (bodyArg : Except String Todo) :
    Response × List Todo :=
  match bodyArg with
  | Except.error e => (⟨400, none, Body.text e⟩, s)
  | Except.ok data =>
      if data.Task = "" then
        (⟨400, none, Body.text "Task is empty"⟩, s)
      else
        let newTask : Todo := ⟨createMaxID s + 1, data.Task, data.Done⟩
        (⟨201, some "application/json", Body.item newTask⟩, s ++ [newTask])

/-- `UpdateHandler` (`main.go` lines 95-129).  Path id and body decode
may each fail; a body id differing from the path id is a 409; otherwise
`slices.IndexFunc` (= `List.findIdx?`) locates the item, `-1` (= `none`)
is a 404, and on success `todos[idx] = data` (= `List.set`). -/
def UpdateHandler (s : List Todo) (idArg : Except Unit Int)
    (bodyArg : Except String Todo) : Response × List Todo :=
  match idArg with
  | Except.error _ =>
      (⟨400, none, Body.text "Invalid ID! ID must be an integer"⟩, s)
  | Except.ok id =>
      match bodyArg with
      | Except.error e => (⟨400, none, Body.text e⟩, s)
      | Except.ok data =>
          if id ≠ data.ID then
            (⟨409, none, Body.text "Id in url doesn't match the id in the body"⟩, s)
          else
            match s.findIdx? (fun t => t.ID == id) with
            | none => (⟨404, none, Body.text "Todo not found"⟩, s)
            | some idx =>
                (⟨200, some "application/json", Body.item data⟩, s.set idx data)

/-- `DeleteHandler` (`main.go` lines 131-152).  `slices.IndexFunc`
locates the item and `slices.Delete(todos, idx, idx+1)` removes exactly
that index (= `List.eraseIdx`). -/
def DeleteHandler (s : List Todo) (idArg : Except Unit Int) :
    Response × List Todo :=
  match idArg with
  | Except.error _ =>
      (⟨400, none, Body.text "Invalid ID! ID must be an integer"⟩, s)
  | Except.ok id =>
      match s.findIdx? (fun t => t.ID == id) with
      | none => (⟨404, none, Body.text "Todo not found"⟩, s)
      | some idx => (⟨204, none, Body.empty⟩, s.eraseIdx idx)

/-- One routed request, as dispatched by the `mux` router in `main`. -/
inductive Request where
  | list : Request
  | read : Except Unit Int → Request
  | create : Except String Todo → Request
  | update : Except Unit Int → Except String Todo → Request
  | delete : Except Unit Int → Request

/-- Dispatch one request to its handler. -/
def applyRequest (s : List Todo) : Request → Response × List Todo
  | Request.list => ListHandler s
  | Request.read idArg => ReadHandler s idArg
  | Request.create bodyArg => CreateHandler s bodyArg
  | Request.update idArg bodyArg => UpdateHandler s idArg bodyArg
  | Request.delete idArg => DeleteHandler s idArg

/-- The state after one request. -/
def stepState (s : List Todo) (req : Request) : List Todo :=
  (applyRequest s req).2

/-- The state after a sequence of requests. -/
def runRequests (s : List Todo) (reqs : List Request) : List Todo :=
  reqs.foldl stepState s

/-- A collection state is reachable when some request sequence produces
it from the startup state. -/
def Reachable (s : List Todo) : Prop :=
  ∃ reqs : List Request, runRequests initialTodos reqs = s

/-- The identifiers stored in a state, in order. -/
def ids (s : List Todo) : List Int :=
  s.map Todo.ID

/-! ### Helper lemmas about the `maxID` scan -/

lemma maxStep_eq_max (m : Int) (t : Todo) :
    (if m < t.ID then t.ID else m) = max m t.ID := by
  rcases le_or_lt t.ID m with h | h
  · rw [if_neg (not_lt.mpr h), max_eq_left h]
  · rw [if_pos h, max_eq_right h.le]

lemma createMaxID_eq_foldl_max (s : List Todo) :
    createMaxID s = (ids s).foldl max 0 := by
  unfold createMaxID ids
  rw [List.foldl_map]
  congr 1
  funext m t
  exact maxStep_eq_max m t

lemma init_le_foldl_max : ∀ (l : List Int) (a : Int), a ≤ l.foldl max a
  | [], a => le_refl a
  | x :: l, a => le_trans (le_max_left a x) (init_le_foldl_max l (max a x))

lemma mem_le_foldl_max : ∀ (l : List Int) (a x : Int), x ∈ l → x ≤ l.foldl max a := by
  intro l
  induction l with
  | nil => intro a x h; cases h
  | cons y l ih =>
    intro a x h
    rcases List.mem_cons.mp h with rfl | h
    · exact le_trans (le_max_right a x) (init_le_foldl_max l (max a x))
    · exact ih (max a y) x h

lemma foldl_max_eq_init_or_mem : ∀ (l : List Int) (a : Int),
    l.foldl max a = a ∨ l.foldl max a ∈ l := by
  intro l
  induction l with
  | nil => intro a; exact Or.inl rfl
  | cons y l ih =>
    intro a
    rcases ih (max a y) with h | h
    · rcases max_choice a y with h2 | h2
      · exact Or.inl (by rw [List.foldl_cons, h, h2])
      · exact Or.inr (by rw [List.foldl_cons, h, h2]; exact List.mem_cons_self y l)
    · exact Or.inr (List.mem_cons_of_mem y h)

lemma createMaxID_nonneg (s : List Todo) : 0 ≤ createMaxID s := by
  rw [createMaxID_eq_foldl_max]
  exact init_le_foldl_max _ 0

lemma le_createMaxID {s : List Todo} {t : Todo} (h : t ∈ s) : t.ID ≤ createMaxID s := by
  rw [createMaxID_eq_foldl_max]
  exact mem_le_foldl_max _ 0 t.ID (List.mem_map_of_mem Todo.ID h)

lemma createMaxID_eq_zero_or_mem (s : List Todo) :
    createMaxID s = 0 ∨ createMaxID s ∈ ids s := by
  rw [createMaxID_eq_foldl_max]
  exact foldl_max_eq_init_or_mem _ 0

lemma fresh_id_not_mem (s : List Todo) : createMaxID s + 1 ∉ ids s := by
  intro h
  rcases List.mem_map.mp h with ⟨t, ht, hid⟩
  have := le_createMaxID ht
  omega

lemma createMaxID_congr {s₁ s₂ : List Todo} (h : ids s₁ = ids s₂) :
    createMaxID s₁ = createMaxID s₂ := by
  rw [createMaxID_eq_foldl_max, createMaxID_eq_foldl_max, h]

lemma createMaxID_append_singleton (s : List Todo) (t : Todo) :
    createMaxID (s ++ [t]) = max (createMaxID s) t.ID := by
  unfold createMaxID
  rw [List.foldl_append, List.foldl_cons, List.foldl_nil]
  exact maxStep_eq_max _ t

/-! ### Branch lemmas for each handler -/

lemma ReadHandler_state (s : List Todo) (idArg : Except Unit Int) :
    (ReadHandler s idArg).2 = s := by
  unfold ReadHandler
  rcases idArg with e | id
  · rfl
  · cases h : s.find? (fun t => t.ID == id) <;> simp [h]

lemma ReadHandler_notfound (s : List Todo) (id : Int)
    (hf : s.find? (fun t => t.ID == id) = none) :
    ReadHandler s (Except.ok id) = (⟨404, none, Body.text "Todo not found"⟩, s) := by
  simp only [ReadHandler, hf]

lemma ReadHandler_found (s : List Todo) (id : Int) (t : Todo)
    (hf : s.find? (fun t => t.ID == id) = some t) :
    ReadHandler s (Except.ok id) =
      (⟨200, some "application/json", Body.item t⟩, s) := by
  simp only [ReadHandler, hf]

lemma CreateHandler_err (s : List Todo) (e : String) :
    CreateHandler s (Except.error e) = (⟨400, none, Body.text e⟩, s) := rfl

lemma CreateHandler_empty_task (s : List Todo) (data : Todo) (h : data.Task = "") :
    CreateHandler s (Except.ok data) = (⟨400, none, Body.text "Task is empty"⟩, s) := by
  simp only [CreateHandler, if_pos h]

lemma CreateHandler_success (s : List Todo) (data : Todo) (h : data.Task ≠ "") :
    CreateHandler s (Except.ok data) =
      (⟨201, some "application/json",
          Body.item ⟨createMaxID s + 1, data.Task, data.Done⟩⟩,
        s ++ [⟨createMaxID s + 1, data.Task, data.Done⟩]) := by
  simp only [CreateHandler, if_neg h]

lemma UpdateHandler_badId (s : List Todo) (e : Unit) (bodyArg : Except String Todo) :
    UpdateHandler s (Except.error e) bodyArg =
      (⟨400, none, Body.text "Invalid ID! ID must be an integer"⟩, s) := rfl

lemma UpdateHandler_badBody (s : List Todo) (id : Int) (e : String) :
    UpdateHandler s (Except.ok id) (Except.error e) =
      (⟨400, none, Body.text e⟩, s) := rfl

lemma UpdateHandler_mismatch (s : List Todo) (id : Int) (data : Todo) (h : id ≠ data.ID) :
    UpdateHandler s (Except.ok id) (Except.ok data) =
      (⟨409, none, Body.text "Id in url doesn't match the id in the body"⟩, s) := by
  simp only [UpdateHandler, if_pos h]

lemma UpdateHandler_notfound (s : List Todo) (id : Int) (data : Todo) (h : data.ID = id)
    (hf : s.findIdx? (fun t => t.ID == id) = none) :
    UpdateHandler s (Except.ok id) (Except.ok data) =
      (⟨404, none, Body.text "Todo not found"⟩, s) := by
  simp only [UpdateHandler, if_neg (show ¬id ≠ data.ID by simp [h]), hf]

lemma UpdateHandler_found (s : List Todo) (id : Int) (data : Todo) (idx : Nat)
    (h : data.ID = id) (hf : s.findIdx? (fun t => t.ID == id) = some idx) :
    UpdateHandler s (Except.ok id) (Except.ok data) =
      (⟨200, some "application/json", Body.item data⟩, s.set idx data) := by
  simp only [UpdateHandler, if_neg (show ¬id ≠ data.ID by simp [h]), hf]

lemma DeleteHandler_badId (s : List Todo) (e : Unit) :
    DeleteHandler s (Except.error e) =
      (⟨400, none, Body.text "Invalid ID! ID must be an integer"⟩, s) := rfl

lemma DeleteHandler_notfound (s : List Todo) (id : Int)
    (hf : s.findIdx? (fun t => t.ID == id) = none) :
    DeleteHandler s (Except.ok id) = (⟨404, none, Body.text "Todo not found"⟩, s) := by
  simp only [DeleteHandler, hf]

lemma DeleteHandler_found (s : List Todo) (id : Int) (idx : Nat)
    (hf : s.findIdx? (fun t => t.ID == id) = some idx) :
    DeleteHandler s (Except.ok id) = (⟨204, none, Body.empty⟩, s.eraseIdx idx) := by
  simp only [DeleteHandler, hf]

/-! ### Identifier bookkeeping across steps -/

lemma ids_append (s : List Todo) (t : Todo) : ids (s ++ [t]) = ids s ++ [t.ID] := by
  simp [ids]

lemma ids_set (s : List Todo) (idx : Nat) (t : Todo) :
    ids (s.set idx t) = (ids s).set idx t.ID := by
  simp [ids]

lemma map_eraseIdx_comm {α β : Type} (f : α → β) :
    ∀ (l : List α) (k : Nat), (l.eraseIdx k).map f = (l.map f).eraseIdx k
  | [], _ => rfl
  | _ :: _, 0 => rfl
  | a :: l, k + 1 => by
      rw [List.eraseIdx_cons_succ, List.map_cons, List.map_cons,
        List.eraseIdx_cons_succ, map_eraseIdx_comm f l k]

lemma ids_eraseIdx (s : List Todo) (idx : Nat) :
    ids (s.eraseIdx idx) = (ids s).eraseIdx idx :=
  map_eraseIdx_comm Todo.ID s idx

lemma set_getElem?_self {α : Type} :
    ∀ (l : List α) (i : Nat) (x : α), l[i]? = some x → l.set i x = l
  | [], _, _ => by intro h; simp at h
  | a :: l, 0, x => by
      intro h
      simp only [List.getElem?_cons_zero, Option.some.injEq] at h
      rw [List.set_cons_zero, h]
  | a :: l, i + 1, x => by
      intro h
      rw [List.getElem?_cons_succ] at h
      rw [List.set_cons_succ, set_getElem?_self l i x h]

lemma findIdx?_id_spec {s : List Todo} {id : Int} {idx : Nat}
    (hf : s.findIdx? (fun t => t.ID == id) = some idx) :
    ∃ h : idx < s.length, (s.get ⟨idx, h⟩).ID = id := by
  rcases List.findIdx?_eq_some_iff_getElem.mp hf with ⟨h, hp, _⟩
  exact ⟨h, by simpa [List.get_eq_getElem] using hp⟩

lemma ids_getElem?_of_findIdx? {s : List Todo} {id : Int} {idx : Nat}
    (hf : s.findIdx? (fun t => t.ID == id) = some idx) :
    (ids s)[idx]? = some id := by
  rcases findIdx?_id_spec hf with ⟨h, hid⟩
  simp only [List.get_eq_getElem] at hid
  rw [ids, List.getElem?_map, List.getElem?_eq_getElem h]
  simp [hid]

/-! ### State effect of a single step -/

lemma stepState_list (s : List Todo) : stepState s Request.list = s := rfl

lemma stepState_read (s : List Todo) (ia : Except Unit Int) :
    stepState s (Request.read ia) = s :=
  ReadHandler_state s ia

lemma stepState_create_cases (s : List Todo) (b : Except String Todo) :
    stepState s (Request.create b) = s ∨
      ∃ t : Todo, t.ID = createMaxID s + 1 ∧
        stepState s (Request.create b) = s ++ [t] := by
  rcases b with e | data
  · exact Or.inl rfl
  · by_cases h : data.Task = ""
    · exact Or.inl (by simp [stepState, applyRequest, CreateHandler_empty_task s data h])
    · exact Or.inr ⟨⟨createMaxID s + 1, data.Task, data.Done⟩, rfl,
        by simp [stepState, applyRequest, CreateHandler_success s data h]⟩

lemma ids_stepState_update (s : List Todo) (ia : Except Unit Int)
    (b : Except String Todo) : ids (stepState s (Request.update ia b)) = ids s := by
  rcases ia with e | id
  · rfl
  rcases b with e | data
  · rfl
  by_cases h : id = data.ID
  · cases hf : s.findIdx? (fun t => t.ID == id) with
    | none =>
        rw [show stepState s (Request.update (Except.ok id) (Except.ok data)) = s from
          by simp [stepState, applyRequest, UpdateHandler_notfound s id data h.symm hf]]
    | some idx =>
        rw [show stepState s (Request.update (Except.ok id) (Except.ok data)) =
            s.set idx data from
          by simp [stepState, applyRequest, UpdateHandler_found s id data idx h.symm hf]]
        rw [ids_set, ← h]
        exact set_getElem?_self (ids s) idx id (ids_getElem?_of_findIdx? hf)
  · rw [show stepState s (Request.update (Except.ok id) (Except.ok data)) = s from
      by simp [stepState, applyRequest, UpdateHandler_mismatch s id data h]]

lemma stepState_delete_cases (s : List Todo) (ia : Except Unit Int) :
    stepState s (Request.delete ia) = s ∨
      ∃ idx : Nat, stepState s (Request.delete ia) = s.eraseIdx idx := by
  rcases ia with e | id
  · exact Or.inl rfl
  · cases hf : s.findIdx? (fun t => t.ID == id) with
    | none =>
        exact Or.inl (by simp [stepState, applyRequest, DeleteHandler_notfound s id hf])
    | some idx =>
        exact Or.inr ⟨idx,
          by simp [stepState, applyRequest, DeleteHandler_found s id idx hf]⟩

/-! ### The uniqueness invariant -/

lemma nodup_stepState {s : List Todo} (h : (ids s).Nodup) (r : Request) :
    (ids (stepState s r)).Nodup := by
  cases r with
  | list => exact h
  | read ia => rw [stepState_read]; exact h
  | create b =>
      rcases stepState_create_cases s b with he | ⟨t, hid, he⟩
      · rw [he]; exact h
      · rw [he, ids_append]
        refine List.Nodup.append h (List.nodup_singleton _) ?_
        intro x hx hx'
        rw [List.mem_singleton.mp hx', hid] at hx
        exact fresh_id_not_mem s hx
  | update ia b => rw [ids_stepState_update]; exact h
  | delete ia =>
      rcases stepState_delete_cases s ia with he | ⟨idx, he⟩
      · rw [he]; exact h
      · rw [he, ids_eraseIdx]; exact List.Nodup.eraseIdx idx h

lemma nodup_runRequests (reqs : List Request) : ∀ s : List Todo,
    (ids s).Nodup → (ids (runRequests s reqs)).Nodup := by
  induction reqs with
  | nil => intro s h; exact h
  | cons r rest ih =>
      intro s h
      exact ih (stepState s r) (nodup_stepState h r)

lemma reachable_nodup {s : List Todo} (h : Reachable s) : (ids s).Nodup := by
  rcases h with ⟨reqs, rfl⟩
  exact nodup_runRequests reqs initialTodos (by decide)

lemma ids_stepState_sublist (s : List Todo) (r : Request) :
    (ids (stepState s r)).Sublist (ids s ++ [createMaxID s + 1]) := by
  cases r with
  | list => exact List.sublist_append_left _ _
  | read ia => rw [stepState_read]; exact List.sublist_append_left _ _
  | create b =>
      rcases stepState_create_cases s b with he | ⟨t, hid, he⟩
      · rw [he]; exact List.sublist_append_left _ _
      · rw [he, ids_append, hid]
  | update ia b =>
      rw [ids_stepState_update]; exact List.sublist_append_left _ _
  | delete ia =>
      rcases stepState_delete_cases s ia with he | ⟨idx, he⟩
      · rw [he]; exact List.sublist_append_left _ _
      · rw [he, ids_eraseIdx]
        exact List.Sublist.trans (List.eraseIdx_sublist _ idx)
          (List.sublist_append_left _ _)

/-! ### Identifier assignment along request sequences -/

/-- Whether a request is routed to `DeleteHandler`. -/
def Request.isDelete : Request → Bool
  | Request.delete _ => true
  | _ => false

/-- The identifiers carried by the successful (201) Create responses of a
request sequence, in order of occurrence. -/
def assignedIds (s : List Todo) : List Request → List Int
  | [] => []
  | r :: rest =>
      let out := applyRequest s r
      (if out.1.status = 201 then
          match out.1.body with
          | Body.item t => [t.ID]
          | _ => []
        else []) ++ assignedIds out.2 rest

lemma assignedIds_cons (s : List Todo) (r : Request) (rest : List Request) :
    assignedIds s (r :: rest) = assignedIds s [r] ++ assignedIds (stepState s r) rest := by
  simp [assignedIds, stepState]

lemma createMaxID_le_stepState (s : List Todo) {r : Request}
    (h : r.isDelete = false) : createMaxID s ≤ createMaxID (stepState s r) := by
  cases r with
  | list => exact le_refl _
  | read ia => rw [stepState_read]
  | create b =>
      rcases stepState_create_cases s b with he | ⟨t, hid, he⟩
      · rw [he]
      · rw [he, createMaxID_append_singleton, hid]
        exact le_max_left _ _
  | update ia b =>
      rw [createMaxID_congr (ids_stepState_update s ia b)]
  | delete ia => simp [Request.isDelete] at h

lemma step_contribution (s : List Todo) (r : Request) :
    assignedIds s [r] = [] ∨
      (assignedIds s [r] = [createMaxID s + 1] ∧
        createMaxID (stepState s r) = createMaxID s + 1) := by
  cases r with
  | list => exact Or.inl rfl
  | read ia =>
      rcases ia with e | id
      · exact Or.inl rfl
      · cases hf : s.find? (fun t => t.ID == id) with
        | none =>
            exact Or.inl (by simp [assignedIds, applyRequest, ReadHandler_notfound s id hf])
        | some t =>
            exact Or.inl (by simp [assignedIds, applyRequest, ReadHandler_found s id t hf])
  | create b =>
      rcases b with e | data
      · exact Or.inl rfl
      · by_cases h : data.Task = ""
        · exact Or.inl (by simp [assignedIds, applyRequest, CreateHandler_empty_task s data h])
        · refine Or.inr ⟨by simp [assignedIds, applyRequest, CreateHandler_success s data h], ?_⟩
          rw [show stepState s (Request.create (Except.ok data)) =
              s ++ [⟨createMaxID s + 1, data.Task, data.Done⟩] from
            by simp [stepState, applyRequest, CreateHandler_success s data h]]
          rw [createMaxID_append_singleton]
          dsimp only
          exact max_eq_right (by omega)
  | update ia b =>
      rcases ia with e | id
      · exact Or.inl rfl
      rcases b with e | data
      · exact Or.inl rfl
      by_cases h : id = data.ID
      · cases hf : s.findIdx? (fun t => t.ID == id) with
        | none =>
            exact Or.inl
              (by simp [assignedIds, applyRequest, UpdateHandler_notfound s id data h.symm hf])
        | some idx =>
            exact Or.inl
              (by simp [assignedIds, applyRequest, UpdateHandler_found s id data idx h.symm hf])
      · exact Or.inl (by simp [assignedIds, applyRequest, UpdateHandler_mismatch s id data h])
  | delete ia =>
      rcases ia with e | id
      · exact Or.inl rfl
      · cases hf : s.findIdx? (fun t => t.ID == id) with
        | none =>
            exact Or.inl (by simp [assignedIds, applyRequest, DeleteHandler_notfound s id hf])
        | some idx =>
            exact Or.inl (by simp [assignedIds, applyRequest, DeleteHandler_found s id idx hf])

lemma assignedIds_bounds : ∀ (reqs : List Request),
    (∀ r ∈ reqs, r.isDelete = false) → ∀ s : List Todo,
    (∀ a ∈ assignedIds s reqs, createMaxID s < a) ∧
      (assignedIds s reqs).Pairwise (· < ·) := by
  intro reqs
  induction reqs with
  | nil => exact fun _ s => ⟨fun a ha => absurd ha (List.not_mem_nil a), List.Pairwise.nil⟩
  | cons r rest ih =>
      intro h s
      have hr : r.isDelete = false := h r (List.mem_cons_self r rest)
      have hrest : ∀ r' ∈ rest, r'.isDelete = false :=
        fun r' h' => h r' (List.mem_cons_of_mem r h')
      obtain ⟨ih1, ih2⟩ := ih hrest (stepState s r)
      have hmono := createMaxID_le_stepState s hr
      rw [assignedIds_cons]
      rcases step_contribution s r with h0 | ⟨h0, h1⟩
      · rw [h0, List.nil_append]
        exact ⟨fun a ha => lt_of_le_of_lt hmono (ih1 a ha), ih2⟩
      · rw [h0, List.singleton_append]
        refine ⟨?_, ?_⟩
        · intro a ha
          rcases List.mem_cons.mp ha with rfl | ha
          · omega
          · have := ih1 a ha
            omega
        · refine List.Pairwise.cons ?_ ih2
          intro a ha
          have := ih1 a ha
          omega

/-! ### The specification's "max of the existing identifiers"

`specMaxExisting` follows the specification's words rather than the
code's scan: the maximum of the identifiers actually stored, taken as
`0` on the empty collection (the spec's own scenario assigns `1` to the
first item of an empty collection).  It is compared with the code's
`createMaxID`, whose accumulator starts at `0` and therefore clamps the
result at `0`. -/

def specMaxExisting : List Todo → Int
  | [] => 0
  | [t] => t.ID
  | t :: rest => max t.ID (specMaxExisting rest)

lemma specMaxExisting_cons (t : Todo) (rest : List Todo) (h : rest ≠ []) :
    specMaxExisting (t :: rest) = max t.ID (specMaxExisting rest) := by
  cases rest with
  | nil => exact absurd rfl h
  | cons r rs => rfl

lemma le_specMaxExisting : ∀ (s : List Todo) (t : Todo), t ∈ s → t.ID ≤ specMaxExisting s
  | [], t, h => absurd h (List.not_mem_nil t)
  | [u], t, h => by
      rcases List.mem_singleton.mp h with rfl
      exact le_refl _
  | u :: r :: rs, t, h => by
      rw [specMaxExisting_cons u (r :: rs) (by simp)]
      rcases List.mem_cons.mp h with rfl | h
      · exact le_max_left _ _
      · exact le_trans (le_specMaxExisting (r :: rs) t h) (le_max_right _ _)

lemma specMaxExisting_mem : ∀ (s : List Todo), s ≠ [] → specMaxExisting s ∈ ids s
  | [], h => absurd rfl h
  | [u], _ => by simp [specMaxExisting, ids]
  | u :: r :: rs, _ => by
      rw [specMaxExisting_cons u (r :: rs) (by simp)]
      rcases max_choice u.ID (specMaxExisting (r :: rs)) with h2 | h2
      · rw [h2]; simp [ids]
      · rw [h2]
        have hmem := specMaxExisting_mem (r :: rs) (by simp)
        simp only [ids, List.map_cons, List.mem_cons]
        simp only [ids] at hmem
        exact Or.inr (by simpa using hmem)

lemma createMaxID_eq_specMaxExisting {s : List Todo} (h : ∀ t ∈ s, 0 ≤ t.ID) :
    createMaxID s = specMaxExisting s := by
  cases s with
  | nil => rfl
  | cons u rest =>
      obtain ⟨t0, ht0, hid0⟩ := List.mem_map.mp (specMaxExisting_mem (u :: rest) (by simp))
      apply le_antisymm
      · rcases createMaxID_eq_zero_or_mem (u :: rest) with h0 | hm
        · rw [h0, ← hid0]
          exact h t0 ht0
        · obtain ⟨t1, ht1, hid1⟩ := List.mem_map.mp hm
          rw [← hid1]
          exact le_specMaxExisting (u :: rest) t1 ht1
      · rw [← hid0]
        exact le_createMaxID ht0

example :
    assignedIds initialTodos
      [Request.create (Except.ok ⟨0, "a", false⟩),
       Request.create (Except.ok ⟨0, "b", true⟩)] = [3, 4] := by decide
example :
    assignedIds initialTodos
      [Request.create (Except.ok ⟨0, "a", false⟩),
       Request.delete (Except.ok 3),
       Request.create (Except.ok ⟨0, "b", true⟩)] = [3, 3] := by decide
example : (CreateHandler [] (Except.ok ⟨7, "Learn Go", false⟩)).1.status = 201 := by decide
example : (CreateHandler [] (Except.ok ⟨7, "Learn Go", false⟩)).2 =
    [⟨1, "Learn Go", false⟩] := by decide
example : (DeleteHandler initialTodos (Except.ok 1)).2 =
    [⟨2, "Build a simple API", false⟩] := by decide
example : (UpdateHandler initialTodos (Except.ok 2) (Except.ok ⟨2, "x", true⟩)).2 =
    [⟨1, "Learn Go basics", true⟩, ⟨2, "x", true⟩] := by decide
example : (UpdateHandler initialTodos (Except.ok 1) (Except.ok ⟨2, "x", true⟩)).1.status
    = 409 := by decide

/-! ## Claim theorems -/

/-- C1, counterexample: the claim quantifies over every collection
state, but on the state `[⟨-1, "x", false⟩]` the code's `maxID` scan
(which starts at `0`) assigns identifier `1`, while the max of the
existing identifiers plus one is `-1 + 1 = 0`. -/
theorem create_id_differs_from_spec_max_on_negative_state :
    (CreateHandler [⟨-1, "x", false⟩] (Except.ok ⟨0, "Learn Go", false⟩)).1.status = 201 ∧
      (CreateHandler [⟨-1, "x", false⟩] (Except.ok ⟨0, "Learn Go", false⟩)).1.body =
        Body.item ⟨1, "Learn Go", false⟩ ∧
      specMaxExisting [⟨-1, "x", false⟩] + 1 = 0 ∧ (1 : Int) ≠ 0 := by
  decide

/-- C1 (amended): on every collection state whose stored identifiers are
all nonnegative (which covers every state reachable from startup), a
successful Create (well-formed body, non-empty task) assigns the new
item the max of the existing identifiers plus one (`1` on the empty
collection), ignores the identifier supplied in the body, appends the
item, and returns 201 with the created item; in particular a Create of
task "Learn Go", done `false` on the empty collection returns 201 with
body `⟨1, "Learn Go", false⟩` whatever identifier the body carries. -/
theorem create_assigns_spec_max_plus_one (s : List Todo) (data : Todo)
    (hnn : ∀ t ∈ s, 0 ≤ t.ID) (htask : data.Task ≠ "") :
    CreateHandler s (Except.ok data) =
      (⟨201, some "application/json",
          Body.item ⟨specMaxExisting s + 1, data.Task, data.Done⟩⟩,
        s ++ [⟨specMaxExisting s + 1, data.Task, data.Done⟩]) ∧
      CreateHandler [] (Except.ok ⟨data.ID, "Learn Go", false⟩) =
        (⟨201, some "application/json", Body.item ⟨1, "Learn Go", false⟩⟩,
          [] ++ [⟨1, "Learn Go", false⟩]) := by
  constructor
  · rw [CreateHandler_success s data htask, createMaxID_eq_specMaxExisting hnn]
  · rw [CreateHandler_success [] ⟨data.ID, "Learn Go", false⟩ (by simp)]
    norm_num [createMaxID]

theorem create_assigns_spec_max_plus_one_witness :
    (∀ t ∈ ([] : List Todo), 0 ≤ t.ID) ∧
      CreateHandler [] (Except.ok ⟨7, "Learn Go", false⟩) =
        (⟨201, some "application/json",
            Body.item ⟨specMaxExisting [] + 1, "Learn Go", false⟩⟩,
          [] ++ [⟨specMaxExisting [] + 1, "Learn Go", false⟩]) :=
  ⟨by decide,
    (create_assigns_spec_max_plus_one [] ⟨7, "Learn Go", false⟩ (by decide) (by decide)).1⟩

/-- C10: the startup collection contains exactly the two seed items with
identifiers 1 and 2, so the first successful Create against it is
assigned identifier 3, not 1. -/
theorem initial_two_items_first_create_gets_three (data : Todo) (h : data.Task ≠ "") :
    initialTodos.length = 2 ∧ ids initialTodos = [1, 2] ∧
      CreateHandler initialTodos (Except.ok data) =
        (⟨201, some "application/json", Body.item ⟨3, data.Task, data.Done⟩⟩,
          initialTodos ++ [⟨3, data.Task, data.Done⟩]) := by
  refine ⟨by decide, by decide, ?_⟩
  rw [CreateHandler_success initialTodos data h]
  norm_num [show createMaxID initialTodos = 2 from by decide]

theorem initial_two_items_first_create_gets_three_witness :
    initialTodos.length = 2 ∧ ids initialTodos = [1, 2] ∧
      CreateHandler initialTodos (Except.ok ⟨0, "Learn Go", false⟩) =
        (⟨201, some "application/json", Body.item ⟨3, "Learn Go", false⟩⟩,
          initialTodos ++ [⟨3, "Learn Go", false⟩]) :=
  initial_two_items_first_create_gets_three ⟨0, "Learn Go", false⟩ (by decide)

/-- C2: in every state reachable from the startup collection the stored
identifiers are pairwise distinct; moreover a step of any handler never
changes the identifier of a surviving item: Update leaves the stored
identifier sequence exactly unchanged, Create either leaves the state
unchanged or appends one item carrying a fresh identifier not yet
present, and Delete either leaves the state unchanged or removes exactly
one index. -/
theorem reachable_ids_nodup_and_ids_immutable (s : List Todo) (h : Reachable s) :
    (ids s).Nodup ∧
      (∀ (ia : Except Unit Int) (b : Except String Todo),
        ids (stepState s (Request.update ia b)) = ids s) ∧
      (∀ b : Except String Todo, stepState s (Request.create b) = s ∨
        ∃ t : Todo, t.ID = createMaxID s + 1 ∧ t.ID ∉ ids s ∧
          stepState s (Request.create b) = s ++ [t]) ∧
      (∀ ia : Except Unit Int, stepState s (Request.delete ia) = s ∨
        ∃ idx : Nat, stepState s (Request.delete ia) = s.eraseIdx idx) := by
  refine ⟨reachable_nodup h, fun ia b => ids_stepState_update s ia b, fun b => ?_,
    fun ia => stepState_delete_cases s ia⟩
  rcases stepState_create_cases s b with he | ⟨t, hid, he⟩
  · exact Or.inl he
  · exact Or.inr ⟨t, hid, by rw [hid]; exact fresh_id_not_mem s, he⟩

theorem reachable_ids_nodup_and_ids_immutable_witness :
    Reachable initialTodos ∧ (ids initialTodos).Nodup :=
  ⟨⟨[], rfl⟩, (reachable_ids_nodup_and_ids_immutable initialTodos ⟨[], rfl⟩).1⟩

/-- C3, counterexample: starting from the startup state, a successful
Create is assigned identifier 3, a Delete of 3 succeeds (204), and the
next successful Create is assigned identifier 3 again — identifiers are
reused over the lifetime of the collection once a Delete intervenes. -/
theorem create_id_reused_after_delete :
    assignedIds initialTodos
        [Request.create (Except.ok ⟨0, "first", false⟩),
         Request.delete (Except.ok 3),
         Request.create (Except.ok ⟨0, "second", false⟩)] = [3, 3] ∧
      (applyRequest (stepState initialTodos (Request.create (Except.ok ⟨0, "first", false⟩)))
          (Request.delete (Except.ok 3))).1.status = 204 ∧
      ¬ (assignedIds initialTodos
          [Request.create (Except.ok ⟨0, "first", false⟩),
           Request.delete (Except.ok 3),
           Request.create (Except.ok ⟨0, "second", false⟩)]).Nodup := by
  decide

/-- C3 (amended): identifier reuse can only follow a Delete.  In any
request sequence containing no Delete, starting from any state, the
identifiers assigned by the successful Create calls are pairwise
distinct. -/
theorem create_ids_distinct_without_deletes (s : List Todo) (reqs : List Request)
    (h : ∀ r ∈ reqs, r.isDelete = false) : (assignedIds s reqs).Nodup :=
  ((assignedIds_bounds reqs h s).2).imp (fun hlt => ne_of_lt hlt)

theorem create_ids_distinct_without_deletes_witness :
    (∀ r ∈ [Request.create (Except.ok (⟨0, "a", false⟩ : Todo)),
            Request.create (Except.ok (⟨0, "b", true⟩ : Todo))],
        r.isDelete = false) ∧
      (assignedIds initialTodos
        [Request.create (Except.ok ⟨0, "a", false⟩),
         Request.create (Except.ok ⟨0, "b", true⟩)]).Nodup :=
  ⟨by decide, create_ids_distinct_without_deletes initialTodos _ (by decide)⟩

/-- C4: for every state and every Update whose path identifier parses,
whose body decodes, and whose body identifier equals the path
identifier, the handler reports 404 exactly when no stored item carries
that identifier, and otherwise returns 200 with the updated item. -/
theorem update_notfound_iff_no_matching_id (s : List Todo) (id : Int) (data : Todo)
    (h : data.ID = id) :
    ((UpdateHandler s (Except.ok id) (Except.ok data)).1.status = 404 ↔
      ∀ t ∈ s, t.ID ≠ id) ∧
      ((∃ t ∈ s, t.ID = id) →
        (UpdateHandler s (Except.ok id) (Except.ok data)).1.status = 200 ∧
          (UpdateHandler s (Except.ok id) (Except.ok data)).1.body = Body.item data) := by
  cases hf : s.findIdx? (fun t => t.ID == id) with
  | none =>
      have hnone : ∀ t ∈ s, t.ID ≠ id := by
        intro t ht
        simpa using List.findIdx?_eq_none_iff.mp hf t ht
      rw [UpdateHandler_notfound s id data h hf]
      refine ⟨⟨fun _ => hnone, fun _ => rfl⟩, ?_⟩
      rintro ⟨t, ht, hid⟩
      exact absurd hid (hnone t ht)
  | some idx =>
      rw [UpdateHandler_found s id data idx h hf]
      refine ⟨⟨fun hc => absurd hc (by simp), fun hall => ?_⟩, fun _ => ⟨rfl, rfl⟩⟩
      obtain ⟨hlt, hid⟩ := findIdx?_id_spec hf
      simp only [List.get_eq_getElem] at hid
      exact absurd hid (hall _ (s.getElem_mem hlt))

theorem update_notfound_iff_no_matching_id_witness :
    ((⟨1, "x", true⟩ : Todo).ID = 1) ∧
      (UpdateHandler initialTodos (Except.ok 1) (Except.ok ⟨1, "x", true⟩)).1.status = 200 ∧
      (UpdateHandler initialTodos (Except.ok 1) (Except.ok ⟨1, "x", true⟩)).1.body =
        Body.item ⟨1, "x", true⟩ :=
  ⟨rfl, (update_notfound_iff_no_matching_id initialTodos 1 ⟨1, "x", true⟩ rfl).2
      ⟨⟨1, "Learn Go basics", true⟩, by decide, rfl⟩⟩

/-- C5: an Update whose body identifier differs from its integer path
identifier returns 409 and leaves the stored collection exactly as it
was. -/
theorem update_mismatch_conflict_state_unchanged (s : List Todo) (id : Int)
    (data : Todo) (h : id ≠ data.ID) :
    (UpdateHandler s (Except.ok id) (Except.ok data)).1.status = 409 ∧
      (UpdateHandler s (Except.ok id) (Except.ok data)).2 = s := by
  rw [UpdateHandler_mismatch s id data h]
  exact ⟨rfl, rfl⟩

theorem update_mismatch_conflict_state_unchanged_witness :
    ((1 : Int) ≠ (⟨2, "x", true⟩ : Todo).ID) ∧
      (UpdateHandler initialTodos (Except.ok 1) (Except.ok ⟨2, "x", true⟩)).1.status = 409 ∧
      (UpdateHandler initialTodos (Except.ok 1) (Except.ok ⟨2, "x", true⟩)).2 = initialTodos :=
  ⟨by decide,
    update_mismatch_conflict_state_unchanged initialTodos 1 ⟨2, "x", true⟩ (by decide)⟩

/-- C6: a successful Update of identifier `i` replaces exactly the first
stored item with that identifier by the body (whose identifier is `i`),
leaves every other position unchanged, preserves length and order, and
responds 200 with exactly the stored updated item. -/
theorem update_success_frame (s : List Todo) (i : Int) (data : Todo)
    (hid : data.ID = i) (hmem : ∃ t ∈ s, t.ID = i) :
    ∃ idx : Nat,
      s.findIdx? (fun t => t.ID == i) = some idx ∧
      (UpdateHandler s (Except.ok i) (Except.ok data)).1 =
        ⟨200, some "application/json", Body.item data⟩ ∧
      (UpdateHandler s (Except.ok i) (Except.ok data)).2 = s.set idx data ∧
      (UpdateHandler s (Except.ok i) (Except.ok data)).2.length = s.length ∧
      ((UpdateHandler s (Except.ok i) (Except.ok data)).2)[idx]? = some data ∧
      data.ID = i ∧
      ∀ j : Nat, j ≠ idx →
        ((UpdateHandler s (Except.ok i) (Except.ok data)).2)[j]? = s[j]? := by
  have hex : ∃ t, t ∈ s ∧ (fun t : Todo => t.ID == i) t := by
    obtain ⟨t, ht, h⟩ := hmem
    exact ⟨t, ht, by simp [h]⟩
  obtain ⟨idx, hf⟩ : ∃ idx, s.findIdx? (fun t => t.ID == i) = some idx :=
    ⟨_, List.findIdx?_eq_some_of_exists hex⟩
  obtain ⟨hlt, _⟩ := findIdx?_id_spec hf
  refine ⟨idx, hf, ?_, ?_, ?_, ?_, hid, ?_⟩
  · rw [UpdateHandler_found s i data idx hid hf]
  · rw [UpdateHandler_found s i data idx hid hf]
  · rw [UpdateHandler_found s i data idx hid hf]; simp
  · rw [UpdateHandler_found s i data idx hid hf]
    exact List.getElem?_set_self hlt
  · intro j hj
    rw [UpdateHandler_found s i data idx hid hf]
    exact List.getElem?_set_ne (Ne.symm hj)

theorem update_success_frame_witness :
    ((⟨2, "x", true⟩ : Todo).ID = 2) ∧ (∃ t ∈ initialTodos, t.ID = 2) ∧
      ∃ idx : Nat,
        initialTodos.findIdx? (fun t => t.ID == 2) = some idx ∧
        (UpdateHandler initialTodos (Except.ok 2) (Except.ok ⟨2, "x", true⟩)).1 =
          ⟨200, some "application/json", Body.item ⟨2, "x", true⟩⟩ ∧
        (UpdateHandler initialTodos (Except.ok 2) (Except.ok ⟨2, "x", true⟩)).2 =
          initialTodos.set idx ⟨2, "x", true⟩ ∧
        (UpdateHandler initialTodos (Except.ok 2) (Except.ok ⟨2, "x", true⟩)).2.length =
          initialTodos.length ∧
        ((UpdateHandler initialTodos (Except.ok 2) (Except.ok ⟨2, "x", true⟩)).2)[idx]? =
          some ⟨2, "x", true⟩ ∧
        (⟨2, "x", true⟩ : Todo).ID = 2 ∧
        ∀ j : Nat, j ≠ idx →
          ((UpdateHandler initialTodos (Except.ok 2) (Except.ok ⟨2, "x", true⟩)).2)[j]? =
            initialTodos[j]? :=
  ⟨rfl, ⟨⟨2, "Build a simple API", false⟩, by decide, rfl⟩,
    update_success_frame initialTodos 2 ⟨2, "x", true⟩ rfl
      ⟨⟨2, "Build a simple API", false⟩, by decide, rfl⟩⟩

lemma no_id_after_eraseIdx {s : List Todo} {i : Int} {idx : Nat}
    (hnd : (ids s).Nodup) (hf : s.findIdx? (fun t => t.ID == i) = some idx) :
    ∀ t ∈ s.eraseIdx idx, t.ID ≠ i := by
  intro t ht hti
  have hmem : i ∈ (ids s).eraseIdx idx := by
    rw [← ids_eraseIdx]
    exact hti ▸ List.mem_map_of_mem Todo.ID ht
  obtain ⟨j, hj, hgj⟩ := List.mem_eraseIdx_iff_getElem?.mp hmem
  have hgidx : (ids s)[idx]? = some i := ids_getElem?_of_findIdx? hf
  obtain ⟨hjlt, _⟩ := List.getElem?_eq_some_iff.mp hgj
  exact hj (List.getElem?_inj hjlt hnd (by rw [hgj, hgidx]))

/-- C7: from any state satisfying the identifier-uniqueness invariant
and containing an item with identifier `i`, Delete of `i` returns 204
and removes the item; a second Delete of `i` then returns 404 and leaves
the state unchanged, and a Read of `i` returns 404 and leaves the state
unchanged: the end state after delete-then-delete equals the state after
the first delete. -/
theorem delete_twice_and_read (s : List Todo) (i : Int)
    (hnd : (ids s).Nodup) (hmem : ∃ t ∈ s, t.ID = i) :
    (DeleteHandler s (Except.ok i)).1.status = 204 ∧
      (∀ t ∈ (DeleteHandler s (Except.ok i)).2, t.ID ≠ i) ∧
      (DeleteHandler (DeleteHandler s (Except.ok i)).2 (Except.ok i)).1.status = 404 ∧
      (DeleteHandler (DeleteHandler s (Except.ok i)).2 (Except.ok i)).2 =
        (DeleteHandler s (Except.ok i)).2 ∧
      (ReadHandler (DeleteHandler s (Except.ok i)).2 (Except.ok i)).1.status = 404 ∧
      (ReadHandler (DeleteHandler s (Except.ok i)).2 (Except.ok i)).2 =
        (DeleteHandler s (Except.ok i)).2 := by
  have hex : ∃ t, t ∈ s ∧ (fun t : Todo => t.ID == i) t := by
    obtain ⟨t, ht, h⟩ := hmem
    exact ⟨t, ht, by simp [h]⟩
  obtain ⟨idx, hf⟩ : ∃ idx, s.findIdx? (fun t => t.ID == i) = some idx :=
    ⟨_, List.findIdx?_eq_some_of_exists hex⟩
  have hnone := no_id_after_eraseIdx hnd hf
  have hf2 : (s.eraseIdx idx).findIdx? (fun t => t.ID == i) = none :=
    List.findIdx?_eq_none_iff.mpr (fun t ht => by simpa using hnone t ht)
  have hrf : (s.eraseIdx idx).find? (fun t => t.ID == i) = none :=
    List.find?_eq_none.mpr (fun t ht => by simpa using hnone t ht)
  rw [DeleteHandler_found s i idx hf]
  refine ⟨rfl, hnone, ?_, ?_, ?_, ?_⟩
  · show (DeleteHandler (s.eraseIdx idx) (Except.ok i)).1.status = 404
    rw [DeleteHandler_notfound (s.eraseIdx idx) i hf2]
  · show (DeleteHandler (s.eraseIdx idx) (Except.ok i)).2 = s.eraseIdx idx
    rw [DeleteHandler_notfound (s.eraseIdx idx) i hf2]
  · show (ReadHandler (s.eraseIdx idx) (Except.ok i)).1.status = 404
    rw [ReadHandler_notfound (s.eraseIdx idx) i hrf]
  · show (ReadHandler (s.eraseIdx idx) (Except.ok i)).2 = s.eraseIdx idx
    rw [ReadHandler_notfound (s.eraseIdx idx) i hrf]

theorem delete_twice_and_read_witness :
    (ids initialTodos).Nodup ∧
      ((DeleteHandler initialTodos (Except.ok 1)).1.status = 204 ∧
        (∀ t ∈ (DeleteHandler initialTodos (Except.ok 1)).2, t.ID ≠ 1) ∧
        (DeleteHandler (DeleteHandler initialTodos (Except.ok 1)).2
            (Except.ok 1)).1.status = 404 ∧
        (DeleteHandler (DeleteHandler initialTodos (Except.ok 1)).2
            (Except.ok 1)).2 = (DeleteHandler initialTodos (Except.ok 1)).2 ∧
        (ReadHandler (DeleteHandler initialTodos (Except.ok 1)).2
            (Except.ok 1)).1.status = 404 ∧
        (ReadHandler (DeleteHandler initialTodos (Except.ok 1)).2
            (Except.ok 1)).2 = (DeleteHandler initialTodos (Except.ok 1)).2) :=
  ⟨by decide, delete_twice_and_read initialTodos 1 (by decide)
    ⟨⟨1, "Learn Go basics", true⟩, by decide, rfl⟩⟩

/-- C9: Update performs no validation of the task field: from any state
containing an item with identifier `i`, an Update of `i` whose body is
`⟨i, "", done⟩` succeeds with 200 and stores an item with identifier `i`
and empty task, although Create rejects any body with an empty task with
status 400. -/
theorem update_accepts_empty_task (s sc : List Todo) (i j : Int) (done done' : Bool)
    (hmem : ∃ t ∈ s, t.ID = i) :
    (UpdateHandler s (Except.ok i) (Except.ok ⟨i, "", done⟩)).1.status = 200 ∧
      (∃ t ∈ (UpdateHandler s (Except.ok i) (Except.ok ⟨i, "", done⟩)).2,
        t.ID = i ∧ t.Task = "") ∧
      (CreateHandler sc (Except.ok ⟨j, "", done'⟩)).1.status = 400 := by
  have hex : ∃ t, t ∈ s ∧ (fun t : Todo => t.ID == i) t := by
    obtain ⟨t, ht, h⟩ := hmem
    exact ⟨t, ht, by simp [h]⟩
  obtain ⟨idx, hf⟩ : ∃ idx, s.findIdx? (fun t => t.ID == i) = some idx :=
    ⟨_, List.findIdx?_eq_some_of_exists hex⟩
  obtain ⟨hlt, _⟩ := findIdx?_id_spec hf
  rw [UpdateHandler_found s i ⟨i, "", done⟩ idx rfl hf,
    CreateHandler_empty_task sc ⟨j, "", done'⟩ rfl]
  refine ⟨rfl, ?_, rfl⟩
  exact ⟨⟨i, "", done⟩,
    List.getElem?_mem (List.getElem?_set_self hlt), rfl, rfl⟩

theorem update_accepts_empty_task_witness :
    (∃ t ∈ initialTodos, t.ID = 2) ∧
      ((UpdateHandler initialTodos (Except.ok 2) (Except.ok ⟨2, "", true⟩)).1.status = 200 ∧
        (∃ t ∈ (UpdateHandler initialTodos (Except.ok 2) (Except.ok ⟨2, "", true⟩)).2,
          t.ID = 2 ∧ t.Task = "") ∧
        (CreateHandler initialTodos (Except.ok ⟨0, "", false⟩)).1.status = 400) :=
  ⟨⟨⟨2, "Build a simple API", false⟩, by decide, rfl⟩,
    update_accepts_empty_task initialTodos initialTodos 2 0 true false
      ⟨⟨2, "Build a simple API", false⟩, by decide, rfl⟩⟩

/-! ### Creating a batch of items from the empty collection -/

/-- Feed a sequence of decoded Create bodies through `CreateHandler`,
threading the state. -/
def runCreates (s : List Todo) : List Todo → List Todo
  | [] => s
  | b :: rest => runCreates (CreateHandler s (Except.ok b)).2 rest

/-- The items carried by the 201 Create responses along the way, in
order. -/
def createdItems (s : List Todo) : List Todo → List Todo
  | [] => []
  | b :: rest =>
      let out := CreateHandler s (Except.ok b)
      (if out.1.status = 201 then
          match out.1.body with
          | Body.item t => [t]
          | _ => []
        else []) ++ createdItems out.2 rest

/-- The items Create produces when run from a state whose `maxID` scan
yields `n`: identifiers `n+1, n+2, ...` carrying the bodies' task/done
data. -/
def mkItems (n : Int) : List Todo → List Todo
  | [] => []
  | b :: rest => ⟨n + 1, b.Task, b.Done⟩ :: mkItems (n + 1) rest

lemma createMaxID_after_create (s : List Todo) (b : Todo) :
    createMaxID (s ++ [⟨createMaxID s + 1, b.Task, b.Done⟩]) = createMaxID s + 1 := by
  rw [createMaxID_append_singleton]
  dsimp only
  exact max_eq_right (by omega)

lemma runCreates_eq : ∀ (bodies : List Todo) (s : List Todo),
    (∀ b ∈ bodies, b.Task ≠ "") →
    runCreates s bodies = s ++ mkItems (createMaxID s) bodies
  | [], s, _ => by simp [runCreates, mkItems]
  | b :: rest, s, hall => by
      have hb : b.Task ≠ "" := hall b (List.mem_cons_self b rest)
      have hrest : ∀ x ∈ rest, x.Task ≠ "" :=
        fun x hx => hall x (List.mem_cons_of_mem b hx)
      have hstep : (CreateHandler s (Except.ok b)).2 =
          s ++ [⟨createMaxID s + 1, b.Task, b.Done⟩] := by
        rw [CreateHandler_success s b hb]
      show runCreates (CreateHandler s (Except.ok b)).2 rest = _
      rw [hstep, runCreates_eq rest _ hrest, createMaxID_after_create s b]
      simp [mkItems, List.append_assoc]

lemma createdItems_eq : ∀ (bodies : List Todo) (s : List Todo),
    (∀ b ∈ bodies, b.Task ≠ "") →
    createdItems s bodies = mkItems (createMaxID s) bodies
  | [], _, _ => rfl
  | b :: rest, s, hall => by
      have hb : b.Task ≠ "" := hall b (List.mem_cons_self b rest)
      have hrest : ∀ x ∈ rest, x.Task ≠ "" :=
        fun x hx => hall x (List.mem_cons_of_mem b hx)
      show (let out := CreateHandler s (Except.ok b)
        (if out.1.status = 201 then
            match out.1.body with
            | Body.item t => [t]
            | _ => []
          else []) ++ createdItems out.2 rest) = _
      rw [CreateHandler_success s b hb]
      dsimp only
      rw [createdItems_eq rest _ hrest, createMaxID_after_create s b]
      simp [mkItems]

lemma mkItems_length : ∀ (bodies : List Todo) (n : Int),
    (mkItems n bodies).length = bodies.length
  | [], _ => rfl
  | b :: rest, n => by simp [mkItems, mkItems_length rest (n + 1)]

lemma mkItems_id_lower : ∀ (bodies : List Todo) (n : Int) (t : Todo),
    t ∈ mkItems n bodies → n + 1 ≤ t.ID
  | [], _, t => by intro h; cases h
  | b :: rest, n, t => by
      intro h
      rcases List.mem_cons.mp h with rfl | h
      · exact le_refl _
      · have := mkItems_id_lower rest (n + 1) t h
        omega

lemma mkItems_find?_self : ∀ (bodies : List Todo) (n : Int) (t : Todo),
    t ∈ mkItems n bodies →
    (mkItems n bodies).find? (fun u => u.ID == t.ID) = some t
  | [], _, t => by intro h; cases h
  | b :: rest, n, t => by
      intro h
      rcases List.mem_cons.mp h with rfl | h
      · show List.find? _ (⟨n + 1, b.Task, b.Done⟩ :: mkItems (n + 1) rest) = _
        rw [List.find?_cons_of_pos _ (by simp)]
      · have hgt : n + 2 ≤ t.ID := by
          have := mkItems_id_lower rest (n + 1) t h
          omega
        show List.find? _ (⟨n + 1, b.Task, b.Done⟩ :: mkItems (n + 1) rest) = _
        rw [List.find?_cons_of_neg _ (by simp; omega), mkItems_find?_self rest (n + 1) t h]

/-- C8: starting from the empty collection, after any number of
successful Creates the List handler returns exactly the created items in
creation order (one per Create call), JSON-encoded with the JSON content
type declared, and a Read of each created item's assigned identifier
returns exactly that item. -/
theorem list_and_read_after_creates (bodies : List Todo)
    (hall : ∀ b ∈ bodies, b.Task ≠ "") :
    (createdItems [] bodies).length = bodies.length ∧
      runCreates [] bodies = createdItems [] bodies ∧
      ListHandler (runCreates [] bodies) =
        (⟨200, some "application/json", Body.items (createdItems [] bodies)⟩,
          runCreates [] bodies) ∧
      ∀ t ∈ createdItems [] bodies,
        ReadHandler (runCreates [] bodies) (Except.ok t.ID) =
          (⟨200, some "application/json", Body.item t⟩, runCreates [] bodies) := by
  have h1 : runCreates [] bodies = mkItems 0 bodies := by
    rw [runCreates_eq bodies [] hall]
    exact List.nil_append _
  have h2 : createdItems [] bodies = mkItems 0 bodies :=
    createdItems_eq bodies [] hall
  refine ⟨?_, ?_, ?_, ?_⟩
  · rw [h2]
    exact mkItems_length bodies 0
  · rw [h1, h2]
  · rw [h1, h2]
    rfl
  · intro t ht
    rw [h2] at ht
    rw [h1]
    exact ReadHandler_found (mkItems 0 bodies) t.ID t (mkItems_find?_self bodies 0 t ht)

theorem list_and_read_after_creates_witness :
    (∀ b ∈ [(⟨9, "a", false⟩ : Todo), ⟨9, "b", true⟩], b.Task ≠ "") ∧
      ((createdItems [] [(⟨9, "a", false⟩ : Todo), ⟨9, "b", true⟩]).length =
          ([(⟨9, "a", false⟩ : Todo), ⟨9, "b", true⟩] : List Todo).length ∧
        runCreates [] [(⟨9, "a", false⟩ : Todo), ⟨9, "b", true⟩] =
          createdItems [] [(⟨9, "a", false⟩ : Todo), ⟨9, "b", true⟩] ∧
        ListHandler (runCreates [] [(⟨9, "a", false⟩ : Todo), ⟨9, "b", true⟩]) =
          (⟨200, some "application/json",
              Body.items (createdItems [] [(⟨9, "a", false⟩ : Todo), ⟨9, "b", true⟩])⟩,
            runCreates [] [(⟨9, "a", false⟩ : Todo), ⟨9, "b", true⟩]) ∧
        ∀ t ∈ createdItems [] [(⟨9, "a", false⟩ : Todo), ⟨9, "b", true⟩],
          ReadHandler (runCreates [] [(⟨9, "a", false⟩ : Todo), ⟨9, "b", true⟩])
              (Except.ok t.ID) =
            (⟨200, some "application/json", Body.item t⟩,
              runCreates [] [(⟨9, "a", false⟩ : Todo), ⟨9, "b", true⟩])) :=
  ⟨by decide, list_and_read_after_creates [⟨9, "a", false⟩, ⟨9, "b", true⟩] (by decide)⟩
